import Mathlib

/-!
Verification development for the query-based sampler of ProbLog 2.1
(problog/sample.py). The Python code is embedded shallowly: Python floats
become rationals, Python dicts become association lists, the process-wide
uniform random source becomes an explicit tape of rationals indexed by a
position stored in the sample store, and fallible Python code (TypeError,
ValueError, IndexError) returns Except values.
-/

namespace Problog

/-- Association-list lookup, modelling a Python dict read. -/
def lookupA {α β : Type} [DecidableEq α] : List (α × β) → α → Option β
  | [], _ => none
  | (k, v) :: rest, key => if key = k then some v else lookupA rest key

/-- Association-list update-or-insert, modelling a Python dict assignment. -/
def insertA {α β : Type} [DecidableEq α] : List (α × β) → α → β → List (α × β)
  | [], key, v => [(key, v)]
  | (k, w) :: rest, key, v =>
    if key = k then (key, v) :: rest else (k, w) :: insertA rest key v

/-- Outcome node of the sampled formula. The LogicFormula base class uses 0
for TRUE, None for FALSE and positive keys for stored values (module
docstring of sample.py); this is modelled by Option with none for None. -/
abbrev Node := Option ℕ

/-- Sentinel node for a true atom (Python: self.TRUE, which is 0). -/
def TRUE : Node := some 0

/-- Sentinel node for a false atom (Python: self.FALSE, which is None). -/
def FALSE : Node := none

/-- Ground term: a functor with numeric arguments (numbers as rationals). -/
structure Term where
  functor : String
  args : List ℚ
deriving DecidableEq

/-- Atom identity: a plain fact id, or the triple (group, result, choice)
naming one alternative of a mutually exclusive choice group. -/
inductive Identifier
  | fact (id : ℕ)
  | choice (group : ℕ) (result : ℕ) (alt : ℕ)
deriving DecidableEq

/-- Probability annotation passed to addAtom: a simple numeric weight or a
distribution term. The Python value None is modelled by Option at the call. -/
inductive Prob
  | simple (p : ℚ)
  | dist (t : Term)
deriving DecidableEq

/-- Errors raised inside the sampler (Python TypeError, ValueError on bad
arguments, IndexError, ValueError for an unknown distribution, and the
ValueError raised by the combinators on conflicting sampled operands). -/
inductive SampleErr
  | typeError
  | valueError
  | indexError
  | unknownDistribution
  | modelingConflict
deriving DecidableEq

/-- Fragment of the dynamic Python value domain handled by the random
primitives: a float, a list of floats (the result of map(float, args) in
Python 2), or the tuple of a float list and a float that the exponential
branch of sample_value builds. -/
inductive PyNum
  | float (q : ℚ)
  | flist (l : List ℚ)
  | pair (l : List ℚ) (x : ℚ)
deriving DecidableEq

/-- Abstract model of the continuous and integer random primitives used by
sample_value. Each primitive reads the random tape at position i and
returns the drawn value together with the new tape position. -/
structure RandomLib where
  normalvariate : ℚ → ℚ → ℕ → ℚ × ℕ
  expovariateF : ℚ → ℕ → ℚ × ℕ
  betavariate : ℚ → ℚ → ℕ → ℚ × ℕ
  gammavariate : ℚ → ℚ → ℕ → ℚ × ℕ
  poissonList : List ℚ → ℕ → ℤ × ℕ
  randrangeInt : ℤ → ℤ → ℕ → ℤ × ℕ

/-- random.expovariate demands a numeric rate; any other Python value makes
its internal division raise TypeError. -/
def expovariate (lib : RandomLib) (lambd : PyNum) (i : ℕ) :
    Except SampleErr (ℚ × ℕ) :=
  match lambd with
  | .float q => .ok (lib.expovariateF q i)
  | _ => .error .typeError

/-- random.randrange(a, b): raises ValueError on non-integer bounds,
otherwise draws an integer from the half-open range. -/
def randrange (lib : RandomLib) (a b : ℚ) (i : ℕ) :
    Except SampleErr (ℤ × ℕ) :=
  if a.den = 1 ∧ b.den = 1 then .ok (lib.randrangeInt a.num b.num i)
  else .error .valueError

/-- sample_poisson as reached from sample_value: the argument it receives is
the whole float list produced by map(float, term.args), and the numpy path
numpy.random.poisson(l)[0] needs that list to be nonempty. -/
def sample_poisson (lib : RandomLib) (l : List ℚ) (i : ℕ) :
    Except SampleErr (ℤ × ℕ) :=
  match l with
  | [] => .error .indexError
  | _ => .ok (lib.poissonList l i)

/-- sample_value(term): draw one value and its probability weight from the
distribution described by term, mirroring sample.py lines 80 to 110 branch
by branch. The exponential branch reproduces the source line
a = map(float, term.args), 0.0 which binds a to a tuple; the uniform branch
calls random.randrange on the two float bounds. -/
def sample_value (lib : RandomLib) (term : Term) (i : ℕ) :
    Except SampleErr (ℚ × ℚ × ℕ) :=
  if term.functor = "normal" then
    match term.args with
    | [a, b] =>
      match lib.normalvariate a b i with
      | (v, i2) => .ok (v, 0, i2)
    | _ => .error .valueError
  else if term.functor = "poisson" then
    match sample_poisson lib term.args i with
    | .ok (n, i2) => .ok ((n : ℚ), 0, i2)
    | .error e => .error e
  else if term.functor = "exponential" then
    match expovariate lib (PyNum.pair term.args 0) i with
    | .ok (v, i2) => .ok (v, 0, i2)
    | .error e => .error e
  else if term.functor = "beta" then
    match term.args with
    | [a, b] =>
      match lib.betavariate a b i with
      | (v, i2) => .ok (v, 0, i2)
    | _ => .error .valueError
  else if term.functor = "gamma" then
    match term.args with
    | [a, b] =>
      match lib.gammavariate a b i with
      | (v, i2) => .ok (v, 0, i2)
    | _ => .error .valueError
  else if term.functor = "uniform" then
    match term.args with
    | [a, b] =>
      match randrange lib a b i with
      | .ok (n, i2) => .ok ((n : ℚ), 0, i2)
      | .error e => .error e
    | _ => .error .valueError
  else if term.functor = "constant" then
    match term.args with
    | v :: _ => .ok (v, 1, i)
    | [] => .error .indexError
  else .error .unknownDistribution

/-- Per-round sample store (class SampledFormula). The fields facts, groups,
probability and values are exactly those set in SampledFormula init; queries
models the query bookkeeping inherited from the LogicFormula base class
(outside this file, kept as plain data); randIdx is the current position in
the global random tape, making the implicit state of the random module
explicit. -/
structure SampledFormula where
  facts : List (Identifier × Node)
  groups : List ((ℕ × ℕ) × Option ℚ)
  probability : ℚ
  values : List ℚ
  queries : List (Term × Node)
  randIdx : ℕ
deriving DecidableEq

/-- Fresh sample store created at the start of a round. -/
def SampledFormula.init : SampledFormula :=
  { facts := [], groups := [], probability := 1, values := [], queries := [],
    randIdx := 0 }

/-- getValue(key): key 0 means no stored value; otherwise read the stored
value values[key-1]. -/
def SampledFormula.getValue (S : SampledFormula) (key : ℕ) : Option ℚ :=
  if key = 0 then none else S.values.get? (key - 1)

/-- Remaining probability mass of a choice-group origin: the entry stored in
groups, defaulting to the full mass 1.0 when the origin is absent
(sample.py lines 163 to 166). -/
def SampledFormula.remaining (S : SampledFormula) (origin : ℕ × ℕ) :
    Option ℚ :=
  match lookupA S.groups origin with
  | some m => m
  | none => some 1

/-- addAtom(identifier, probability, group): resolve one probabilistic atom,
drawing from the uniform tape u, mirroring sample.py lines 133 to 190. The
group keyword of the Python method always agrees with the shape of the
identifier at the call sites, so here the branch is chosen by that shape. -/
def addAtom (lib : RandomLib) (u : ℕ → ℚ) (S : SampledFormula)
    (identifier : Identifier) (probability : Option Prob) :
    Except SampleErr (Node × SampledFormula) :=
  match probability with
  | none => .ok (some 0, S)
  | some prob =>
    match identifier with
    | .fact _ =>
      match lookupA S.facts identifier with
      | some node => .ok (node, S)
      | none =>
        match prob with
        | .simple pr =>
          if u S.randIdx < pr then
            .ok (TRUE, { S with probability := S.probability * pr,
                                facts := insertA S.facts identifier TRUE,
                                randIdx := S.randIdx + 1 })
          else
            .ok (FALSE, { S with probability := S.probability * (1 - pr),
                                 facts := insertA S.facts identifier FALSE,
                                 randIdx := S.randIdx + 1 })
        | .dist t =>
          match sample_value lib t S.randIdx with
          | .error e => .error e
          | .ok (value, pw, i2) =>
            .ok (some (S.values ++ [value]).length,
                 { S with probability := S.probability * pw,
                          values := S.values ++ [value],
                          facts := insertA S.facts identifier
                                     (some (S.values ++ [value]).length),
                          randIdx := i2 })
    | .choice g rs _ =>
      match lookupA S.facts identifier with
      | some node => .ok (node, S)
      | none =>
        match prob with
        | .simple p =>
          match S.remaining (g, rs) with
          | none =>
            .ok (FALSE, { S with facts := insertA S.facts identifier FALSE })
          | some rq =>
            if rq < mkRat 1 100000000 then
              .ok (FALSE,
                   { S with groups := insertA S.groups (g, rs) (some (rq - p)),
                            facts := insertA S.facts identifier FALSE })
            else
              if u S.randIdx ≤ p / rq then
                .ok (TRUE, { S with probability := S.probability * p,
                                    groups := insertA S.groups (g, rs) none,
                                    facts := insertA S.facts identifier TRUE,
                                    randIdx := S.randIdx + 1 })
              else
                .ok (FALSE,
                     { S with groups := insertA S.groups (g, rs)
                                          (some (rq - p)),
                              facts := insertA S.facts identifier FALSE,
                              randIdx := S.randIdx + 1 })
        | .dist t =>
          match sample_value lib t S.randIdx with
          | .error e => .error e
          | .ok (value, pw, i2) =>
            .ok (some (S.values ++ [value]).length,
                 { S with probability := S.probability * pw,
                          values := S.values ++ [value],
                          facts := insertA S.facts identifier
                                     (some (S.values ++ [value]).length),
                          randIdx := i2 })

/-- Degenerate instance of the random primitives, usable for concrete runs
that never reach a continuous draw. -/
def trivLib : RandomLib :=
  { normalvariate := fun _ _ i => (0, i)
    expovariateF := fun _ i => (0, i)
    betavariate := fun _ _ i => (0, i)
    gammavariate := fun _ _ i => (0, i)
    poissonList := fun _ i => (0, i)
    randrangeInt := fun _ _ i => (0, i) }

/-- Node returned by an addAtom call, when it did not raise. -/
def resNode (r : Except SampleErr (Node × SampledFormula)) : Option Node :=
  match r with
  | .ok (n, _) => some n
  | .error _ => none

/-- Store state after an addAtom call, when it did not raise. -/
def resState (r : Except SampleErr (Node × SampledFormula)) :
    Option SampledFormula :=
  match r with
  | .ok (_, S) => some S
  | .error _ => none

/-- Running probability after an addAtom call, when it did not raise. -/
def resProb (r : Except SampleErr (Node × SampledFormula)) : Option ℚ :=
  (resState r).map SampledFormula.probability

/-- computeProbability(): multiply the running probability by the leftover
mass of every origin whose entry in groups is not None, then clear groups
(sample.py lines 192 to 196). -/
def computeProbability (S : SampledFormula) : SampledFormula :=
  { S with
    probability :=
      S.groups.foldl
        (fun acc kp =>
          match kp.2 with
          | none => acc
          | some p => acc * p)
        S.probability,
    groups := [] }

/-- Product of the leftover masses recorded in a groups table: entries whose
mass is None contribute nothing. -/
def leftover (gs : List ((ℕ × ℕ) × Option ℚ)) : ℚ :=
  (gs.filterMap Prod.snd).prod

/-- An operand counts as live for the combinator conflict check when it is
neither the Python value None nor the TRUE sentinel 0
(sample.py lines 200 to 203 and 209 to 212). -/
def live (c : Node) : Bool := c != none && c != some 0

/-- Number of live operands in a combinator call. -/
def liveCount (content : List Node) : ℕ := (content.filter live).length

/-- Scan loop shared by addAnd and addOr: walk the operands keeping a count
of live ones and report a conflict as soon as the count passes one. -/
def combineScan : ℕ → List Node → Bool
  | _, [] => false
  | i, c :: cs =>
    let i2 := if live c then i + 1 else i
    if 1 < i2 then true else combineScan i2 cs

/-- addAnd(content): raise the modeling conflict when more than one operand
is live, otherwise delegate to the combinator of the LogicFormula base
class, modelled by the function base. -/
def addAnd (base : List Node → Node) (content : List Node) :
    Except SampleErr Node :=
  if combineScan 0 content then .error .modelingConflict
  else .ok (base content)

/-- addOr(content): same conflict scan as addAnd, then delegate to the base
combinator. -/
def addOr (base : List Node → Node) (content : List Node) :
    Except SampleErr Node :=
  if combineScan 0 content then .error .modelingConflict
  else .ok (base content)

/-- One output line of toString: a plain fact line, a negated fact line, a
value binding line, or the probability summary comment. The evidence
wrapper and the exact text rendering are formatting and are not modelled. -/
inductive Line
  | fact (k : Term)
  | negFact (k : Term)
  | binding (k : Term) (v : ℚ)
  | probSummary (p : ℚ)
deriving DecidableEq

/-- Lines contributed by one query entry in toString
(sample.py lines 226 to 235). -/
def queryLine (S : SampledFormula) (as_evidence : Bool) (kv : Term × Node) :
    Option Line :=
  match kv.2 with
  | some n =>
    match S.getValue n with
    | none => some (Line.fact kv.1)
    | some val => if as_evidence then none else some (Line.binding kv.1 val)
  | none => if as_evidence then some (Line.negFact kv.1) else none

/-- Line contributed by one stored fact when with_facts is set
(sample.py lines 236 to 241); translateF models translate(db, k), which
needs the external clause database. -/
def factLine (translateF : Identifier → Term) (kv : Identifier × Node) :
    Option Line :=
  match kv.2 with
  | some 0 => some (Line.fact (translateF kv.1))
  | none => some (Line.negFact (translateF kv.1))
  | some _ => none

/-- toString: first finalize the probability with computeProbability, then
serialize query outcomes (and optionally stored facts) with duplicate lines
removed and an optional probability summary appended; the oneline flag only
changes the separator between lines and is not modelled. Returns the lines
together with the mutated store (sample.py lines 216 to 250). -/
def SampledFormula.toString (S : SampledFormula)
    (translateF : Identifier → Term)
    (with_facts with_probability as_evidence : Bool) :
    List Line × SampledFormula :=
  let S1 := computeProbability S
  let lines := S1.queries.filterMap (queryLine S1 as_evidence)
  let lines2 :=
    if with_facts then lines ++ S1.facts.filterMap (factLine translateF)
    else lines
  let lines3 := lines2.dedup
  let lines4 :=
    if with_probability then lines3 ++ [Line.probSummary S1.probability]
    else lines3
  (lines4, S1)

/-- toTuples: one record per query whose node is not the FALSE sentinel,
carrying the query term and its stored value or its absence, with
duplicates removed. The store is returned unchanged: the Python method
mutates nothing and in particular never calls computeProbability
(sample.py lines 252 to 261). -/
def SampledFormula.toTuples (S : SampledFormula) :
    List (Term × Option ℚ) × SampledFormula :=
  ((S.queries.filterMap fun kv =>
      match kv.2 with
      | some n => some (kv.1, S.getValue n)
      | none => none).dedup,
   S)

/-- Result of one grounding round as seen by the drivers: the evidence and
query entries of the finished sample store. The grounding engine itself is
an external collaborator. -/
structure Round where
  evidence : List (Term × Node)
  queries : List (Term × Node)

/-- Evidence check of the drivers: a round is accepted when no evidence
atom resolved to the FALSE sentinel None (sample.py lines 321 to 325). -/
def evidenceOk (r : Round) : Bool := r.evidence.all fun e => e.2.isSome

/-- estimates[k] += 1.0 on a defaultdict(float): a missing key counts as
zero. -/
def bump (est : List (Term × ℚ)) (k : Term) : List (Term × ℚ) :=
  match lookupA est k with
  | some v => insertA est k (v + 1)
  | none => insertA est k 1

/-- Per-round accumulation of estimate: count one for every query whose
node is the plain TRUE sentinel 0 (sample.py lines 327 to 329). -/
def tallyRound (est : List (Term × ℚ)) (qs : List (Term × Node)) :
    List (Term × ℚ) :=
  qs.foldl (fun e kv => if kv.2 = some 0 then bump e kv.1 else e) est

/-- Accumulation loop of estimate (sample.py lines 318 to 334): rounds are
consumed from the given stream while n is 0 or fewer than n rounds were
accepted; the end of the stream models the external interrupt that stops an
open-ended run. Returns the raw counts and the number of accepted rounds. -/
def estimateLoop (n : ℕ) (est : List (Term × ℚ)) (counts : ℕ) :
    List Round → List (Term × ℚ) × ℕ
  | [] => (est, counts)
  | r :: rs =>
    if n = 0 ∨ counts < n then
      if evidenceOk r then
        estimateLoop n (tallyRound est r.queries) (counts + 1) rs
      else estimateLoop n est counts rs
    else (est, counts)

/-- estimate(model, n): run the accumulation loop and then divide each
accumulated count by the number of accepted rounds
(sample.py lines 310 to 338). -/
def estimate (n : ℕ) (rounds : List Round) : List (Term × ℚ) :=
  let p := estimateLoop n [] 0 rounds
  p.1.map fun kv => (kv.1, kv.2 / (p.2 : ℚ))

/-- Concrete store that has already resolved plain fact 0 to TRUE. -/
def memoStore : SampledFormula :=
  { SampledFormula.init with facts := [(Identifier.fact 0, TRUE)] }

/-- Concrete store whose choice-group origin (0, 0) is already committed:
its groups entry is None. -/
def committedStore : SampledFormula :=
  { SampledFormula.init with groups := [((0, 0), none)] }

/-- Concrete store whose origin (0, 0) still holds leftover mass 1/2. -/
def halfGroupStore : SampledFormula :=
  { SampledFormula.init with groups := [((0, 0), some (mkRat 1 2))] }

/-- Concrete store reached after the alternative of probability 3/10 at
origin (0, 0) was drawn FALSE: remaining mass 7/10, one consumed draw. -/
def rejected03 : SampledFormula :=
  { SampledFormula.init with
    facts := [(Identifier.choice 0 0 0, FALSE)],
    groups := [((0, 0), some (mkRat 7 10))],
    randIdx := 1 }

/-- First call of the exhaustion scenario: the alternative of probability
999999999/1000000000 at origin (0, 0) is rejected by the draw 1, leaving
remaining mass 1/1000000000, below the 1e-8 threshold. -/
def exhaust1 : Except SampleErr (Node × SampledFormula) :=
  addAtom trivLib (fun _ => 1) SampledFormula.init (.choice 0 0 0)
    (some (.simple (mkRat 999999999 1000000000)))

/-- Second call of the exhaustion scenario: an alternative of probability
1/2 of the same origin hits the exhaustion branch. -/
def exhaust2 : Except SampleErr (Node × SampledFormula) :=
  match exhaust1 with
  | .ok (_, S) =>
    addAtom trivLib (fun _ => 1) S (.choice 0 0 1) (some (.simple (mkRat 1 2)))
  | .error e => .error e

/-- Concrete store reached when the 1/2 alternative at origin (0, 0) of a
fresh store is drawn TRUE under the draw 1/4. -/
def drawnTrueStore : SampledFormula :=
  { SampledFormula.init with
    probability := mkRat 1 2,
    groups := [((0, 0), none)],
    facts := [(Identifier.choice 0 0 0, TRUE)],
    randIdx := 1 }

/-- Concrete store reached from committedStore when plain fact 1 with
probability 1/2 is drawn FALSE under the draw 3/4. -/
def rejectedFactStore : SampledFormula :=
  { committedStore with
    probability := mkRat 1 2,
    facts := [(Identifier.fact 1, FALSE)],
    randIdx := 1 }

/-- Concrete query atom used by driver scenarios. -/
def qAtom : Term := { functor := "q", args := [] }

/-- Concrete round whose only evidence atom resolved FALSE, so the round is
rejected by the drivers. -/
def rejectedRound : Round :=
  { evidence := [(qAtom, none)], queries := [(qAtom, some 0)] }

/-! Helper lemmas about the association-list operations and the loops. -/

theorem lookupA_insertA_self {α β : Type} [DecidableEq α]
    (l : List (α × β)) (k : α) (v : β) :
    lookupA (insertA l k v) k = some v := by
  induction l with
  | nil => simp [insertA, lookupA]
  | cons hd tl ih =>
    obtain ⟨k2, w⟩ := hd
    by_cases h : k = k2
    · subst h
      simp [insertA, lookupA]
    · simp [insertA, lookupA, h, ih]

theorem lookupA_insertA_ne {α β : Type} [DecidableEq α]
    (l : List (α × β)) (k k2 : α) (v : β) (h : k ≠ k2) :
    lookupA (insertA l k2 v) k = lookupA l k := by
  induction l with
  | nil => simp [insertA, lookupA, h]
  | cons hd tl ih =>
    obtain ⟨k3, w⟩ := hd
    by_cases h2 : k2 = k3
    · subst h2
      simp [insertA, lookupA, h]
    · simp [insertA, lookupA, h2, ih]

theorem foldl_mass (gs : List ((ℕ × ℕ) × Option ℚ)) :
    ∀ a : ℚ,
      gs.foldl
        (fun acc kp =>
          match kp.2 with
          | none => acc
          | some p => acc * p) a
        = a * leftover gs := by
  induction gs with
  | nil => intro a; simp [leftover]
  | cons hd tl ih =>
    intro a
    obtain ⟨k, m⟩ := hd
    cases m with
    | none => simp [leftover, List.filterMap_cons, ih, leftover]
    | some p =>
      simp [leftover, List.filterMap_cons, ih, mul_assoc]

theorem combineScan_spec (cs : List Node) :
    ∀ i : ℕ, i ≤ 1 → (combineScan i cs = true ↔ 1 < i + liveCount cs) := by
  induction cs with
  | nil =>
    intro i hi
    simp only [combineScan, liveCount, List.filter_nil, List.length_nil]
    constructor
    · intro h; cases h
    · omega
  | cons c tl ih =>
    intro i hi
    simp only [combineScan]
    cases hc : live c with
    | true =>
      simp only [hc, if_true]
      rcases Nat.lt_or_ge i 1 with h1 | h1
      · have hi0 : i = 0 := by omega
        subst hi0
        have hnot : ¬ (1 < 0 + 1) := by omega
        rw [if_neg hnot, ih 1 (by omega)]
        simp [liveCount, List.filter_cons, hc]
      · have hi1 : i = 1 := by omega
        subst hi1
        rw [if_pos (by omega)]
        simp [liveCount, List.filter_cons, hc]
    | false =>
      have hnot : ¬ (1 < i) := by omega
      simp [hc, hnot, ih i hi, liveCount, List.filter_cons]

/-! Claim theorems. -/

/-- Claim C3: when an atom identity is already recorded in facts, a second
addAtom call with that identity returns exactly the cached node and leaves
the whole store, probability, facts, groups, values and random position
included, unchanged: no new random draw happens. -/
theorem C3_memoization (lib : RandomLib) (u : ℕ → ℚ) (S : SampledFormula)
    (identifier : Identifier) (pr : Prob) (node : Node)
    (h : lookupA S.facts identifier = some node) :
    addAtom lib u S identifier (some pr) = .ok (node, S) := by
  cases identifier <;> simp [addAtom, h]

/-- Witness for C3: a store that already resolved fact 0 to TRUE returns
the cached TRUE node and the unchanged store. -/
theorem C3_memoization_witness :
    lookupA memoStore.facts (Identifier.fact 0) = some TRUE
    ∧ addAtom trivLib (fun _ => 0) memoStore (Identifier.fact 0)
        (some (.simple (mkRat 2 5))) = .ok (TRUE, memoStore) :=
  ⟨rfl, C3_memoization trivLib (fun _ => 0) memoStore (Identifier.fact 0)
      (.simple (mkRat 2 5)) TRUE rfl⟩

/-- Claim C4: addAnd and addOr raise the modeling conflict exactly when
more than one operand is live, that is, neither None nor 0; otherwise they
delegate to the base combinator without raising. -/
theorem C4_combinator_conflict (base : List Node → Node)
    (content : List Node) :
    addAnd base content
        = (if 1 < liveCount content then .error .modelingConflict
           else .ok (base content))
    ∧ addOr base content
        = (if 1 < liveCount content then .error .modelingConflict
           else .ok (base content)) := by
  have h := combineScan_spec content 0 (by omega)
  rw [Nat.zero_add] at h
  by_cases hl : 1 < liveCount content
  · have hs : combineScan 0 content = true := h.mpr hl
    simp [addAnd, addOr, hs, hl]
  · have hs : combineScan 0 content = false := by
      cases hcs : combineScan 0 content
      · rfl
      · exact absurd (h.mp hcs) hl
    simp [addAnd, addOr, hs, hl]

/-- Claim C5 (amended): computeProbability multiplies the running
probability by the leftover mass of every origin whose entry is not None
and clears groups; because groups is cleared, a second call in the same
round is a no-op, so the operation is idempotent rather than
double-counting. -/
theorem C5_finalization (S : SampledFormula) :
    (computeProbability S).probability = S.probability * leftover S.groups
    ∧ (computeProbability S).groups = []
    ∧ computeProbability (computeProbability S) = computeProbability S :=
  ⟨foldl_mass S.groups S.probability, rfl, rfl⟩

/-- Counterexample for C5 as stated: on a store holding leftover mass 1/2,
the first computeProbability call multiplies the probability to 1/2; the
second call leaves everything unchanged instead of double-counting the
mass to 1/4, because groups was cleared by the first call. -/
theorem C5_counterexample :
    (computeProbability halfGroupStore).probability = mkRat 1 2
    ∧ computeProbability (computeProbability halfGroupStore)
        = computeProbability halfGroupStore
    ∧ (computeProbability (computeProbability halfGroupStore)).probability
        ≠ mkRat 1 2 * mkRat 1 2 := by
  refine ⟨?_, rfl, ?_⟩ <;>
    norm_num [computeProbability, halfGroupStore, SampledFormula.init,
      Rat.mkRat_eq_div]

/-- Claim C6: contrary to the specified Distribution Sampler contract, the
exponential branch of sample_value binds its rate to the tuple
(map(float, args), 0.0) and hands that tuple to random.expovariate, which
raises TypeError for every rate; no exponential draw is ever produced. -/
theorem C6_exponential_type_error (lib : RandomLib) (rate : ℚ) (i : ℕ) :
    sample_value lib { functor := "exponential", args := [rate] } i
      = .error .typeError := rfl

/-- Claim C7: a plain fact with probability 0.4 resolves TRUE under the
draw 0.3 with store probability 0.4, and in a fresh round resolves FALSE
under the draw 0.5 with store probability 0.6. -/
theorem C7_bernoulli_scenario :
    (resNode (addAtom trivLib (fun _ => mkRat 3 10) SampledFormula.init
        (.fact 0) (some (.simple (mkRat 2 5)))) = some TRUE
      ∧ resProb (addAtom trivLib (fun _ => mkRat 3 10) SampledFormula.init
          (.fact 0) (some (.simple (mkRat 2 5)))) = some (mkRat 2 5))
    ∧ (resNode (addAtom trivLib (fun _ => mkRat 1 2) SampledFormula.init
        (.fact 0) (some (.simple (mkRat 2 5)))) = some FALSE
      ∧ resProb (addAtom trivLib (fun _ => mkRat 1 2) SampledFormula.init
          (.fact 0) (some (.simple (mkRat 2 5)))) = some (mkRat 3 5)) := by
  refine ⟨⟨?_, ?_⟩, ⟨?_, ?_⟩⟩ <;>
    norm_num [addAtom, SampledFormula.init, resNode, resState, resProb,
      insertA, lookupA, TRUE, FALSE, Rat.mkRat_eq_div]

/-- Claim C10: after the 999999999/1000000000 alternative of origin (0, 0)
is rejected, the leftover mass 1/1000000000 lies strictly between 0 and
the 1e-8 threshold; querying a 1/2 alternative of the same origin is then
forced FALSE but still stores the negative mass 1/1000000000 - 1/2, and
computeProbability multiplies the joint probability by that negative
leftover, making the finalized probability negative. -/
theorem C10_negative_leftover :
    (resState exhaust1).map (fun S => lookupA S.groups (0, 0))
        = some (some (some (mkRat 1 1000000000)))
    ∧ 0 < mkRat 1 1000000000
    ∧ mkRat 1 1000000000 < mkRat 1 100000000
    ∧ resNode exhaust2 = some FALSE
    ∧ (resState exhaust2).map (fun S => lookupA S.groups (0, 0))
        = some (some (some (mkRat 1 1000000000 - mkRat 1 2)))
    ∧ (resState exhaust2).map (fun S => (computeProbability S).probability)
        = some (mkRat 1 1000000000 - mkRat 1 2)
    ∧ mkRat 1 1000000000 - mkRat 1 2 < 0 := by
  have h1 : exhaust1
      = .ok (FALSE,
          { SampledFormula.init with
            groups := [((0, 0), some (1 - mkRat 999999999 1000000000))],
            facts := [(Identifier.choice 0 0 0, FALSE)],
            randIdx := 1 }) := by
    norm_num [exhaust1, addAtom, SampledFormula.init, SampledFormula.remaining,
      insertA, lookupA, trivLib, FALSE, Rat.mkRat_eq_div]
  have h2 : exhaust2
      = .ok (FALSE,
          { SampledFormula.init with
            groups :=
              [((0, 0),
                some ((1 - mkRat 999999999 1000000000) - mkRat 1 2))],
            facts := [(Identifier.choice 0 0 0, FALSE),
                      (Identifier.choice 0 0 1, FALSE)],
            randIdx := 1 }) := by
    rw [exhaust2, h1]
    norm_num [addAtom, SampledFormula.init, SampledFormula.remaining,
      insertA, lookupA, trivLib, FALSE, Rat.mkRat_eq_div]
  rw [h1, h2]
  norm_num [resState, resNode, computeProbability, lookupA, FALSE,
    SampledFormula.init, Rat.mkRat_eq_div]

theorem addAtom_true_commits (lib : RandomLib) (u : ℕ → ℚ)
    (S S1 : SampledFormula) (g rs a : ℕ) (p : ℚ)
    (hfresh : lookupA S.facts (.choice g rs a) = none)
    (h : addAtom lib u S (.choice g rs a) (some (.simple p))
          = .ok (TRUE, S1)) :
    lookupA S1.groups (g, rs) = some none := by
  simp only [addAtom, hfresh] at h
  cases hr : S.remaining (g, rs) with
  | none =>
    simp only [hr] at h
    injection h with h2
    injection h2 with hn hS
    exact Option.noConfusion hn
  | some rq =>
    simp only [hr] at h
    by_cases heps : rq < mkRat 1 100000000
    · rw [if_pos heps] at h
      injection h with h2
      injection h2 with hn hS
      exact Option.noConfusion hn
    · rw [if_neg heps] at h
      by_cases hdraw : u S.randIdx ≤ p / rq
      · rw [if_pos hdraw] at h
        injection h with h2
        injection h2 with hn hS
        subst hS
        exact lookupA_insertA_self S.groups (g, rs) none
      · rw [if_neg hdraw] at h
        injection h with h2
        injection h2 with hn hS
        exact Option.noConfusion hn

theorem addAtom_keeps_committed (lib : RandomLib) (u : ℕ → ℚ)
    (S S1 : SampledFormula) (identifier : Identifier) (pr : Option Prob)
    (n : Node) (g rs : ℕ)
    (hg : lookupA S.groups (g, rs) = some none)
    (h : addAtom lib u S identifier pr = .ok (n, S1)) :
    lookupA S1.groups (g, rs) = some none := by
  cases pr with
  | none =>
    simp only [addAtom] at h
    injection h with h2
    injection h2 with hn hS
    subst hS
    exact hg
  | some prob =>
    cases identifier with
    | fact fid =>
      simp only [addAtom] at h
      cases hf : lookupA S.facts (Identifier.fact fid) with
      | some node0 =>
        simp only [hf] at h
        injection h with h2
        injection h2 with hn hS
        subst hS
        exact hg
      | none =>
        simp only [hf] at h
        cases prob with
        | simple p2 =>
          dsimp only at h
          by_cases hdraw : u S.randIdx < p2
          · rw [if_pos hdraw] at h
            injection h with h2
            injection h2 with hn hS
            subst hS
            exact hg
          · rw [if_neg hdraw] at h
            injection h with h2
            injection h2 with hn hS
            subst hS
            exact hg
        | dist t =>
          dsimp only at h
          cases hs : sample_value lib t S.randIdx with
          | error e =>
            simp only [hs] at h
            exact Except.noConfusion h
          | ok v =>
            obtain ⟨value, pw, i2⟩ := v
            simp only [hs] at h
            injection h with h2
            injection h2 with hn hS
            subst hS
            exact hg
    | choice g2 rs2 a2 =>
      simp only [addAtom] at h
      cases hf : lookupA S.facts (Identifier.choice g2 rs2 a2) with
      | some node0 =>
        simp only [hf] at h
        injection h with h2
        injection h2 with hn hS
        subst hS
        exact hg
      | none =>
        simp only [hf] at h
        cases prob with
        | dist t =>
          dsimp only at h
          cases hs : sample_value lib t S.randIdx with
          | error e =>
            simp only [hs] at h
            exact Except.noConfusion h
          | ok v =>
            obtain ⟨value, pw, i2⟩ := v
            simp only [hs] at h
            injection h with h2
            injection h2 with hn hS
            subst hS
            exact hg
        | simple p =>
          dsimp only at h
          cases hr : S.remaining (g2, rs2) with
          | none =>
            simp only [hr] at h
            injection h with h2
            injection h2 with hn hS
            subst hS
            exact hg
          | some rq =>
            have hne : ((g, rs) : ℕ × ℕ) ≠ (g2, rs2) := by
              intro he
              have hnone : S.remaining (g2, rs2) = none := by
                rw [← he]
                simp [SampledFormula.remaining, hg]
              rw [hnone] at hr
              exact Option.noConfusion hr
            simp only [hr] at h
            by_cases heps : rq < mkRat 1 100000000
            · rw [if_pos heps] at h
              injection h with h2
              injection h2 with hn hS
              subst hS
              rw [lookupA_insertA_ne S.groups (g, rs) (g2, rs2) _ hne]
              exact hg
            · rw [if_neg heps] at h
              by_cases hdraw : u S.randIdx ≤ p / rq
              · rw [if_pos hdraw] at h
                injection h with h2
                injection h2 with hn hS
                subst hS
                rw [lookupA_insertA_ne S.groups (g, rs) (g2, rs2) _ hne]
                exact hg
              · rw [if_neg hdraw] at h
                injection h with h2
                injection h2 with hn hS
                subst hS
                rw [lookupA_insertA_ne S.groups (g, rs) (g2, rs2) _ hne]
                exact hg

theorem addAtom_committed_forced (lib : RandomLib) (u : ℕ → ℚ)
    (S : SampledFormula) (g rs a : ℕ) (p : ℚ)
    (hg : lookupA S.groups (g, rs) = some none)
    (hfresh : lookupA S.facts (.choice g rs a) = none) :
    addAtom lib u S (.choice g rs a) (some (.simple p))
      = .ok (FALSE,
          { S with facts := insertA S.facts (.choice g rs a) FALSE }) := by
  have hr : S.remaining (g, rs) = none := by
    simp [SampledFormula.remaining, hg]
  simp [addAtom, hfresh, hr]

/-- Claim C1: once an alternative of a choice-group origin is freshly
resolved TRUE by addAtom, the groups entry of that origin is set to None;
every later addAtom call, on any atom, keeps a committed origin committed;
and any other not-yet-resolved alternative of a committed origin resolves
FALSE while the store changes only by the cached FALSE fact, so the running
probability, the groups table and the random position are untouched. -/
theorem C1_exclusivity (lib : RandomLib) (u : ℕ → ℚ) :
    (∀ (S S1 : SampledFormula) (g rs a : ℕ) (p : ℚ),
        lookupA S.facts (.choice g rs a) = none →
        addAtom lib u S (.choice g rs a) (some (.simple p))
          = .ok (TRUE, S1) →
        lookupA S1.groups (g, rs) = some none)
    ∧ (∀ (S S1 : SampledFormula) (identifier : Identifier)
          (pr : Option Prob) (n : Node) (g rs : ℕ),
        lookupA S.groups (g, rs) = some none →
        addAtom lib u S identifier pr = .ok (n, S1) →
        lookupA S1.groups (g, rs) = some none)
    ∧ (∀ (S : SampledFormula) (g rs a : ℕ) (p : ℚ),
        lookupA S.groups (g, rs) = some none →
        lookupA S.facts (.choice g rs a) = none →
        addAtom lib u S (.choice g rs a) (some (.simple p))
          = .ok (FALSE,
              { S with facts := insertA S.facts (.choice g rs a) FALSE })) :=
  ⟨fun S S1 g rs a p hf h =>
      addAtom_true_commits lib u S S1 g rs a p hf h,
   fun S S1 identifier pr n g rs hg h =>
      addAtom_keeps_committed lib u S S1 identifier pr n g rs hg h,
   fun S g rs a p hg hf =>
      addAtom_committed_forced lib u S g rs a p hg hf⟩

/-- Witness for C1: drawing the 1/2 alternative TRUE commits origin (0, 0);
a later plain-fact call keeps the origin committed; and a second
alternative of the committed origin is forced FALSE with only its cached
fact added. -/
theorem C1_exclusivity_witness :
    (lookupA SampledFormula.init.facts (.choice 0 0 0) = none
      ∧ addAtom trivLib (fun _ => mkRat 1 4) SampledFormula.init
          (.choice 0 0 0) (some (.simple (mkRat 1 2)))
          = .ok (TRUE, drawnTrueStore)
      ∧ lookupA drawnTrueStore.groups (0, 0) = some none)
    ∧ (lookupA committedStore.groups (0, 0) = some none
      ∧ addAtom trivLib (fun _ => mkRat 3 4) committedStore (.fact 1)
          (some (.simple (mkRat 1 2))) = .ok (FALSE, rejectedFactStore)
      ∧ lookupA rejectedFactStore.groups (0, 0) = some none)
    ∧ addAtom trivLib (fun _ => 0) committedStore (.choice 0 0 1)
        (some (.simple (mkRat 1 2)))
        = .ok (FALSE,
            { committedStore with
              facts := insertA committedStore.facts (.choice 0 0 1) FALSE }) := by
  have hA : addAtom trivLib (fun _ => mkRat 1 4) SampledFormula.init
      (.choice 0 0 0) (some (.simple (mkRat 1 2)))
      = .ok (TRUE, drawnTrueStore) := by
    norm_num [addAtom, SampledFormula.init, SampledFormula.remaining,
      drawnTrueStore, lookupA, insertA, trivLib, TRUE, Rat.mkRat_eq_div]
  have hB : addAtom trivLib (fun _ => mkRat 3 4) committedStore (.fact 1)
      (some (.simple (mkRat 1 2))) = .ok (FALSE, rejectedFactStore) := by
    norm_num [addAtom, committedStore, SampledFormula.init,
      rejectedFactStore, lookupA, insertA, trivLib, FALSE, Rat.mkRat_eq_div]
  exact ⟨⟨rfl, hA,
      (C1_exclusivity trivLib (fun _ => mkRat 1 4)).1 SampledFormula.init
        drawnTrueStore 0 0 0 (mkRat 1 2) rfl hA⟩,
    ⟨rfl, hB,
      (C1_exclusivity trivLib (fun _ => mkRat 3 4)).2.1 committedStore
        rejectedFactStore (.fact 1) (some (.simple (mkRat 1 2))) FALSE 0 0
        rfl hB⟩,
    (C1_exclusivity trivLib (fun _ => 0)).2.2 committedStore 0 0 1
      (mkRat 1 2) rfl rfl⟩

/-- Claim C2: for a fresh alternative with simple probability p whose
origin holds remaining mass rq, neither None nor below the 1e-8 threshold,
addAtom draws TRUE exactly when the uniform value is at most p / rq; on
TRUE it multiplies the running probability by the unconditional mass p and
commits the origin; on FALSE it stores rq - p as the remaining mass. -/
theorem C2_renormalization (lib : RandomLib) (u : ℕ → ℚ)
    (S : SampledFormula) (g rs a : ℕ) (p rq : ℚ)
    (hfresh : lookupA S.facts (.choice g rs a) = none)
    (hrem : S.remaining (g, rs) = some rq)
    (hbig : ¬ rq < mkRat 1 100000000) :
    addAtom lib u S (.choice g rs a) (some (.simple p))
      = if u S.randIdx ≤ p / rq then
          .ok (TRUE,
            { S with probability := S.probability * p,
                     groups := insertA S.groups (g, rs) none,
                     facts := insertA S.facts (.choice g rs a) TRUE,
                     randIdx := S.randIdx + 1 })
        else
          .ok (FALSE,
            { S with groups := insertA S.groups (g, rs) (some (rq - p)),
                     facts := insertA S.facts (.choice g rs a) FALSE,
                     randIdx := S.randIdx + 1 }) := by
  simp only [addAtom, hfresh, hrem]
  rw [if_neg hbig]

/-- Witness for C2: after the 3/10 alternative was rejected the origin
holds mass 7/10, and the 1/5 alternative is offered exactly the
renormalized threshold (1/5) / (7/10), that is 0.2 / 0.7. -/
theorem C2_renormalization_witness :
    lookupA rejected03.facts (.choice 0 0 1) = none
    ∧ rejected03.remaining (0, 0) = some (mkRat 7 10)
    ∧ ¬ mkRat 7 10 < mkRat 1 100000000
    ∧ addAtom trivLib (fun _ => mkRat 2 7) rejected03 (.choice 0 0 1)
        (some (.simple (mkRat 1 5)))
        = if mkRat 2 7 ≤ mkRat 1 5 / mkRat 7 10 then
            .ok (TRUE,
              { rejected03 with
                probability := rejected03.probability * mkRat 1 5,
                groups := insertA rejected03.groups (0, 0) none,
                facts := insertA rejected03.facts (.choice 0 0 1) TRUE,
                randIdx := rejected03.randIdx + 1 })
          else
            .ok (FALSE,
              { rejected03 with
                groups := insertA rejected03.groups (0, 0)
                            (some (mkRat 7 10 - mkRat 1 5)),
                facts := insertA rejected03.facts (.choice 0 0 1) FALSE,
                randIdx := rejected03.randIdx + 1 }) :=
  ⟨rfl, rfl, by decide,
   C2_renormalization trivLib (fun _ => mkRat 2 7) rejected03 0 0 1
     (mkRat 1 5) (mkRat 7 10) rfl rfl (by decide)⟩

/-- Claim C8 (amended): toString calls computeProbability before emitting
and returns the finalized store with duplicate-free lines when no
probability summary is appended; toTuples leaves the store unchanged, so
it does not finalize, and emits one duplicate-free record per query whose
node is not the FALSE sentinel, pairing the query with its stored value or
its absence. -/
theorem C8_finalize_serialize (S : SampledFormula)
    (translateF : Identifier → Term) (wf wp ae : Bool) :
    (S.toString translateF wf wp ae).2 = computeProbability S
    ∧ (S.toString translateF wf false ae).1.Nodup
    ∧ S.toTuples.2 = S
    ∧ S.toTuples.1.Nodup
    ∧ (∀ tup : Term × Option ℚ,
        tup ∈ S.toTuples.1 ↔
          ∃ kv ∈ S.queries, ∃ nn : ℕ, kv.2 = some nn
            ∧ tup = (kv.1, S.getValue nn)) := by
  refine ⟨rfl, ?_, rfl, ?_, ?_⟩
  · simp [SampledFormula.toString, List.nodup_dedup]
  · simp [SampledFormula.toTuples, List.nodup_dedup]
  · intro tup
    simp only [SampledFormula.toTuples, List.mem_dedup, List.mem_filterMap]
    constructor
    · rintro ⟨kv, hmem, hf⟩
      cases hkv : kv.2 with
      | none =>
        rw [hkv] at hf
        exact Option.noConfusion hf
      | some nn =>
        rw [hkv] at hf
        injection hf with hf2
        exact ⟨kv, hmem, nn, hkv, hf2.symm⟩
    · rintro ⟨kv, hmem, nn, hkv, htup⟩
      refine ⟨kv, hmem, ?_⟩
      rw [hkv, htup]

/-- Counterexample for C8 as stated: toTuples on a store with pending
group mass returns the store unchanged, with the groups entry intact and
probability 1, whereas a computeProbability call would clear groups and
set probability 1/2; so toTuples does not call computeProbability before
emitting. -/
theorem C8_counterexample :
    SampledFormula.toTuples halfGroupStore = ([], halfGroupStore)
    ∧ halfGroupStore.groups = [((0, 0), some (mkRat 1 2))]
    ∧ halfGroupStore.probability = 1
    ∧ (computeProbability halfGroupStore).groups = []
    ∧ (computeProbability halfGroupStore).probability = mkRat 1 2
    ∧ (1 : ℚ) ≠ mkRat 1 2 := by
  refine ⟨rfl, rfl, rfl, rfl, ?_, ?_⟩ <;>
    norm_num [computeProbability, halfGroupStore, SampledFormula.init,
      Rat.mkRat_eq_div]

theorem estimateLoop_counts_le (n : ℕ) :
    ∀ (rs : List Round) (est : List (Term × ℚ)) (c : ℕ),
      c ≤ (estimateLoop n est c rs).2 := by
  intro rs
  induction rs with
  | nil => intro est c; exact Nat.le_refl c
  | cons r tl ih =>
    intro est c
    simp only [estimateLoop]
    by_cases hcond : n = 0 ∨ c < n
    · rw [if_pos hcond]
      by_cases he : evidenceOk r = true
      · rw [if_pos he]
        exact Nat.le_trans (Nat.le_succ c) (ih _ (c + 1))
      · rw [if_neg he]
        exact ih _ c
    · rw [if_neg hcond]

theorem estimateLoop_stagnant (n : ℕ) :
    ∀ (rs : List Round) (est : List (Term × ℚ)) (c : ℕ),
      (estimateLoop n est c rs).2 = c → (estimateLoop n est c rs).1 = est := by
  intro rs
  induction rs with
  | nil => intro est c h; rfl
  | cons r tl ih =>
    intro est c h
    simp only [estimateLoop] at h ⊢
    by_cases hcond : n = 0 ∨ c < n
    · rw [if_pos hcond] at h ⊢
      by_cases he : evidenceOk r = true
      · rw [if_pos he] at h ⊢
        exfalso
        have hle := estimateLoop_counts_le n tl (tallyRound est r.queries)
          (c + 1)
        omega
      · rw [if_neg he] at h ⊢
        exact ih _ c h
    · rw [if_neg hcond] at h ⊢

/-- Claim C9: when the estimate loop finishes with zero accepted rounds the
raw count table is empty, so the final division loop runs over nothing and
the returned estimates mapping is empty; conversely a nonempty count table
implies at least one accepted round, so every division that does run has a
round count of at least 1. -/
theorem C9_no_divide_by_zero (n : ℕ) (rounds : List Round) :
    ((estimateLoop n [] 0 rounds).2 = 0 →
      (estimateLoop n [] 0 rounds).1 = [] ∧ estimate n rounds = [])
    ∧ ((estimateLoop n [] 0 rounds).1 ≠ [] →
      1 ≤ (estimateLoop n [] 0 rounds).2) := by
  constructor
  · intro h0
    have h1 := estimateLoop_stagnant n rounds [] 0 h0
    refine ⟨h1, ?_⟩
    simp [estimate, h1]
  · intro hne
    rcases Nat.eq_zero_or_pos (estimateLoop n [] 0 rounds).2 with h0 | h0
    · exact absurd (estimateLoop_stagnant n rounds [] 0 h0) hne
    · exact h0

/-- Witness for C9: a single round whose evidence atom is FALSE is
rejected, the loop finishes with zero accepted rounds, and estimate
returns the empty mapping without dividing. -/
theorem C9_no_divide_by_zero_witness :
    (estimateLoop 1 [] 0 [rejectedRound]).2 = 0
    ∧ (estimateLoop 1 [] 0 [rejectedRound]).1 = []
    ∧ estimate 1 [rejectedRound] = [] :=
  ⟨rfl, (C9_no_divide_by_zero 1 [rejectedRound]).1 rfl⟩

end Problog
